import Mathlib

/-
  Verification development for the profile resolution and switching logic of
  the ovsx-profile-switcher extension.

  The embedding models JavaScript strings as Lean `String` (a wrapper around
  `List Char`), with the JavaScript string primitives used by the source
  (`startsWith`, `endsWith`, `replace(/\\/g, "/")`, `.length`) defined
  explicitly on the character list.  File-system and editor-API effects are
  modelled by passing their observable results as explicit parameters.
-/

namespace ProfileSwitcher

/-- Models JavaScript `s.startsWith(pre)`: `pre` is a literal prefix of `s`. -/
def jsStartsWith (s pre : String) : Bool :=
  pre.data.isPrefixOf s.data

/-- Models JavaScript `s.endsWith(suf)`: `suf` is a literal suffix of `s`. -/
def jsEndsWith (s suf : String) : Bool :=
  suf.data.isSuffixOf s.data

/-- Models JavaScript `s.replace(/\\/g, "/")`: every backslash character is
replaced by a forward slash. -/
def replaceBackslashes (s : String) : String :=
  ⟨s.data.map fun c => if c = '\\' then '/' else c⟩

/-- Normalization of a directory-mapping key, from
`settingsManager.ts` line 146 and `profileManager.ts` lines 366 and 430:
`dirPath.endsWith("/") ? dirPath : dirPath + "/"`. -/
def normalizeDirPath (dirPath : String) : String :=
  if jsEndsWith dirPath "/" then dirPath else dirPath ++ "/"

/-- Normalization of the computed relative path, from `settingsManager.ts`
line 147 and `profileManager.ts` lines 363 and 425:
`relativePath.replace(/\\/g, "/") + "/"` (the trailing slash is appended
unconditionally). -/
def normalizeRelativePath (relativePath : String) : String :=
  replaceBackslashes relativePath ++ "/"

/-- Whether a single directory mapping entry `(dirPath, profile)` applies to
the already-normalized relative path `rel`: the loop-body condition
`normalizedRelativePath.startsWith(normalizedDirPath)`. -/
def matchesDir (rel : String) (e : String × String) : Bool :=
  jsStartsWith rel (normalizeDirPath e.1)

/-- One iteration of the best-match loop shared by `getProfileForPath`
(`settingsManager.ts` lines 144-156), `applyProfileOnStartup`
(`profileManager.ts` lines 365-373) and `applyProfileForActiveFile`
(`profileManager.ts` lines 429-437): if the entry matches, it replaces the
current best exactly when there is no best yet or its normalized key is
strictly longer. -/
def bestMatchStep (rel : String) (best : Option (String × String))
    (e : String × String) : Option (String × String) :=
  let nd := normalizeDirPath e.1
  if jsStartsWith rel nd then
    match best with
    | none => some (nd, e.2)
    | some b => if nd.length > b.1.length then some (nd, e.2) else some b
  else best

/-- The full best-match loop: fold `bestMatchStep` over the directory
mappings in enumeration order, starting from no best match.  The result
pairs the normalized matched key with the mapped profile name. -/
def findBestMatch (rel : String) (mappings : List (String × String)) :
    Option (String × String) :=
  mappings.foldl (bestMatchStep rel) none

/-- Models the content of `.vscode/settings.json` as observed by
`settingsManager.ts`: the file can be missing (`fs.existsSync` false),
unparseable (`JSON.parse` throws), or parsed with optional
`profileSwitcher.workspaceProfile` and `profileSwitcher.directoryProfiles`
entries. -/
inductive SettingsSource where
  | missing
  | unparseable
  | parsed (workspaceProfile : Option String)
      (directoryProfiles : Option (List (String × String)))

/-- Embedding of `getWorkspaceProfile` (`settingsManager.ts` lines 86-101):
returns `undefined` when the settings file is missing, returns `undefined`
from the catch block when parsing throws, and otherwise returns the
`workspaceProfile` entry (absent entries read as `undefined`). -/
def getWorkspaceProfile : SettingsSource → Option String
  | SettingsSource.missing => none
  | SettingsSource.unparseable => none
  | SettingsSource.parsed ws _ => ws

/-- Embedding of `getDirectoryProfiles` (`settingsManager.ts` lines 106-121):
returns `{}` when the settings file is missing, returns `{}` from the catch
block when parsing throws, and otherwise returns
`settings[DIRECTORY_PROFILES_KEY] || {}` (an absent entry, being falsy,
yields the empty mapping). -/
def getDirectoryProfiles : SettingsSource → List (String × String)
  | SettingsSource.missing => []
  | SettingsSource.unparseable => []
  | SettingsSource.parsed _ dirs => dirs.getD []

/-- Embedding of `getProfileForPath` (`settingsManager.ts` lines 127-159).
`relativePath` stands for the host's `path.relative(workspacePath, filePath)`.
The source first reads the workspace profile into `workspaceProfile` and
tests `if (workspaceProfile)`, but the body of that conditional contains
only comments: the read value is never returned and has no effect on the
result.  The function then scans the directory profiles with the best-match
loop and returns `bestMatch?.profile`. -/
def getProfileForPath (s : SettingsSource) (relativePath : String) :
    Option String :=
  let _workspaceProfile := getWorkspaceProfile s
  let directoryProfiles := getDirectoryProfiles s
  (findBestMatch (normalizeRelativePath relativePath) directoryProfiles).map
    Prod.snd

/-- Result of a resolution, following the decision structure of
`applyProfileOnStartup` (`profileManager.ts` lines 313-395): either the
workspace-level profile is applied (lines 320-344), or the best directory
match is applied together with its normalized matched path (lines 347-392),
or nothing is applied. -/
inductive ResolutionResult where
  | WorkspaceLevel (profile : String)
  | DirectoryLevel (profile : String) (matchedPath : String)
  | NoMatch
deriving DecidableEq, Repr

/-- JavaScript truthiness of the configuration read
`config.get<string>("workspaceProfile")`: an absent value and the empty
string are falsy. -/
def wsTruthy : Option String → Bool
  | none => false
  | some s => s ≠ ""

/-- Embedding of the resolution logic of `applyProfileOnStartup`
(`profileManager.ts` lines 313-395), with the editor plumbing abstracted to
its observable inputs: the configured workspace profile, the configured
directory mappings, and the relative path computed by `path.relative` from
the workspace root to the active file.  If the workspace profile is truthy
it is applied and the directory mappings are never consulted (the function
returns at line 343); otherwise the best-match loop over the directory
mappings decides, yielding `NoMatch` when no entry matches. -/
def resolveStartup (workspaceProfile : Option String)
    (directoryProfiles : List (String × String)) (relativePath : String) :
    ResolutionResult :=
  if wsTruthy workspaceProfile then
    ResolutionResult.WorkspaceLevel (workspaceProfile.getD "")
  else
    match findBestMatch (normalizeRelativePath relativePath)
        directoryProfiles with
    | some b => ResolutionResult.DirectoryLevel b.2 b.1
    | none => ResolutionResult.NoMatch

/-- Embedding of `getProfileIdFromName` (`profileManager.ts` lines 51-90).
`idToName` models the profile ID-to-name registry loaded from
`globalStorage/storage.json` (in entry enumeration order) and
`profileDirExists` models the `fs.existsSync`/`isDirectory` check on
`profiles/<name>`.  The sentinel `"Default"` yields the empty identifier;
otherwise the first registry entry whose name equals the request wins; as a
fallback the raw name is returned when a profile directory of that name
exists; otherwise the lookup yields `null`. -/
def getProfileIdFromName (idToName : List (String × String))
    (profileDirExists : String → Bool) (profileName : String) :
    Option String :=
  if profileName = "Default" then
    some ""
  else
    match idToName.find? (fun e => e.2 == profileName) with
    | some e => some e.1
    | none =>
        if profileDirExists profileName then some profileName else none

/-- The ordered candidate argument list built by `switchToProfile`
(`profileManager.ts` lines 107-125): each element is the string argument
passed to `workbench.action.profiles.switchProfile`.  For `"Default"` the
list is the empty identifier then the literal name; otherwise the resolved
identifier (when non-null) followed always by the raw name. -/
def buildApproaches (profileName : String) (profileId : Option String) :
    List String :=
  if profileName = "Default" then
    ["", "Default"]
  else
    (match profileId with
     | some pid => [pid]
     | none => []) ++ [profileName]

/-- The strategy loop of `switchToProfile` (`profileManager.ts` lines
128-151): try each approach in order; an approach that completes without
error short-circuits the loop with `true`; an approach that throws is
caught and the next one is tried; when the list is exhausted the function
returns `false`.  `exec a` models awaiting
`executeCommand("workbench.action.profiles.switchProfile", a)`, with
`Except.error` standing for a thrown host-API error. -/
def runApproaches (exec : String → Except String Unit) :
    List String → Bool
  | [] => false
  | a :: rest =>
      match exec a with
      | Except.ok _ => true
      | Except.error _ => runApproaches exec rest

/-- The list of approach arguments actually invoked by the strategy loop,
in order: the loop awaits each approach until one completes without error,
so every invoked argument up to and including the first successful one is
recorded and nothing after it. -/
def invokedApproaches (exec : String → Except String Unit) :
    List String → List String
  | [] => []
  | a :: rest =>
      match exec a with
      | Except.ok _ => [a]
      | Except.error _ => a :: invokedApproaches exec rest

/-- Embedding of `switchToProfile` (`profileManager.ts` lines 99-156): the
profile identifier is resolved from the name, the candidate approaches are
built, and the strategy loop decides the boolean outcome.  All host-API
errors are consumed inside the loop (and the enclosing try/catch likewise
returns `false`), so the function totalizes to a `Bool` and never
propagates an exception. -/
def switchToProfile (idToName : List (String × String))
    (profileDirExists : String → Bool)
    (exec : String → Except String Unit) (profileName : String) : Bool :=
  runApproaches exec
    (buildApproaches profileName
      (getProfileIdFromName idToName profileDirExists profileName))

/-- A single entry of the profiles directory as returned by
`fs.readdirSync(profilesPath, { withFileTypes: true })`. -/
structure DirEntry where
  name : String
  isDirectory : Bool

/-- Models the observable outcome of the file-system reads performed by
`getAvailableProfilesFromFileSystem` (`profileManager.ts` lines 196-260):
the user data path may be missing, the profiles directory may be missing,
reading it may throw, or it yields a list of entries. -/
inductive FSReadResult where
  | noUserDataPath
  | profilesDirMissing
  | readError
  | entries (es : List DirEntry)

/-- Models the JavaScript lookup `profileIdToNameMap[profileId] ||
profileId` (`profileManager.ts` line 229): the registry name is used when
present and truthy (non-empty), otherwise the raw identifier. -/
def lookupNameOrId (idToName : List (String × String)) (profileId : String) :
    String :=
  match idToName.find? (fun e => e.1 == profileId) with
  | some e => if e.2 = "" then profileId else e.2
  | none => profileId

/-- The filter applied to directory entries (`profileManager.ts` lines
222-225): only directories, skipping hidden names and the reserved name
`"cache"`. -/
def keepEntry (e : DirEntry) : Bool :=
  e.isDirectory && !(jsStartsWith e.name ".") && e.name != "cache"

/-- The `"Default"`-injection step (`profileManager.ts` lines 240-244 and
178-181): `if (!profiles.includes("Default")) profiles.unshift("Default")`. -/
def injectDefault (profiles : List String) : List String :=
  if profiles.contains "Default" then profiles else "Default" :: profiles

/-- The residual guard (`profileManager.ts` lines 246-250 and 183-186):
`if (profiles.length === 0) profiles.push("Default")`. -/
def ensureNonEmpty (profiles : List String) : List String :=
  if profiles.isEmpty then profiles ++ ["Default"] else profiles

/-- Models JavaScript `profiles.sort()` on an array of strings:
lexicographic string sort. -/
def sortStrings (profiles : List String) : List String :=
  List.insertionSort (fun a b => a ≤ b) profiles

/-- Embedding of `getAvailableProfilesFromFileSystem` (`profileManager.ts`
lines 196-260).  When the user data path cannot be found, `["Default"]` is
returned early (before the sort).  When reading the profiles directory
throws, the catch block finds `profiles` still empty and pushes
`"Default"`.  Otherwise the kept entries are mapped through the registry,
`"Default"` is injected if absent, the (then unreachable) emptiness guard
runs, and the result is sorted. -/
def getAvailableProfilesFromFileSystem (fsr : FSReadResult)
    (idToName : List (String × String)) : List String :=
  match fsr with
  | FSReadResult.noUserDataPath => ["Default"]
  | FSReadResult.profilesDirMissing =>
      sortStrings (ensureNonEmpty (injectDefault []))
  | FSReadResult.readError => sortStrings (ensureNonEmpty ([] ++ ["Default"]))
  | FSReadResult.entries es =>
      let names := (es.filter keepEntry).map fun e =>
        lookupNameOrId idToName e.name
      sortStrings (ensureNonEmpty (injectDefault names))

/-- Embedding of `getAvailableProfiles` (`profileManager.ts` lines
163-191): the file-system enumeration is used when it yields a non-empty
list; the residual tail code (reached only if it were empty) injects and
sorts `"Default"` into a fresh empty list. -/
def getAvailableProfiles (fsr : FSReadResult)
    (idToName : List (String × String)) : List String :=
  let fsProfiles := getAvailableProfilesFromFileSystem fsr idToName
  if fsProfiles.length > 0 then fsProfiles
  else sortStrings (ensureNonEmpty (injectDefault []))

/-- Unfolding equation for `bestMatchStep` on an empty accumulator. -/
theorem bestMatchStep_none_eq (rel : String) (e : String × String) :
    bestMatchStep rel none e =
      if jsStartsWith rel (normalizeDirPath e.1) then
        some (normalizeDirPath e.1, e.2)
      else none := rfl

/-- Unfolding equation for `bestMatchStep` on a non-empty accumulator. -/
theorem bestMatchStep_some_eq (rel : String) (b e : String × String) :
    bestMatchStep rel (some b) e =
      if jsStartsWith rel (normalizeDirPath e.1) then
        if (normalizeDirPath e.1).length > b.1.length then
          some (normalizeDirPath e.1, e.2)
        else some b
      else some b := rfl

/-- Once the loop holds a best match it never loses it, and the length of
the held normalized key never decreases. -/
theorem foldl_step_some (rel : String) (m : List (String × String))
    (b : String × String) :
    ∃ b', m.foldl (bestMatchStep rel) (some b) = some b' ∧
      b.1.length ≤ b'.1.length := by
  induction m generalizing b with
  | nil => exact ⟨b, rfl, le_refl _⟩
  | cons e m ih =>
      rw [List.foldl_cons, bestMatchStep_some_eq]
      by_cases hm : jsStartsWith rel (normalizeDirPath e.1)
      · simp only [hm, if_true]
        by_cases hl : (normalizeDirPath e.1).length > b.1.length
        · simp only [hl, if_true]
          obtain ⟨b', h, h'⟩ := ih (normalizeDirPath e.1, e.2)
          exact ⟨b', h, le_trans (Nat.le_of_lt hl) h'⟩
        · simp only [hl, if_false]
          exact ih b
      · simp only [hm, if_false]
        exact ih b

/-- The loop ends with no best match exactly when no entry matches. -/
theorem findBestMatch_eq_none_iff (rel : String)
    (m : List (String × String)) :
    findBestMatch rel m = none ↔ ∀ e ∈ m, matchesDir rel e = false := by
  unfold findBestMatch
  induction m with
  | nil => simp
  | cons e m ih =>
      rw [List.foldl_cons, bestMatchStep_none_eq]
      by_cases hm : jsStartsWith rel (normalizeDirPath e.1)
      · rw [if_pos hm]
        constructor
        · intro hc
          obtain ⟨b', hb', _⟩ :=
            foldl_step_some rel m (normalizeDirPath e.1, e.2)
          rw [hb'] at hc
          cases hc
        · intro hall
          have : matchesDir rel e = false := hall e (List.mem_cons_self e m)
          rw [matchesDir, hm] at this
          cases this
      · rw [if_neg hm]
        rw [ih]
        constructor
        · intro hall
          intro e' he'
          rcases List.mem_cons.mp he' with h | h
          · subst h
            rw [matchesDir]
            exact Bool.not_eq_true _ ▸ (by simpa using hm)
          · exact hall e' h
        · intro hall e' he'
          exact hall e' (List.mem_cons_of_mem e he')

/-- Soundness of the loop: a final best match that did not come from the
initial accumulator is a matching entry of the list, recorded with its
normalized key. -/
theorem foldl_step_mem (rel : String) (m : List (String × String))
    (acc : Option (String × String)) (b : String × String)
    (h : m.foldl (bestMatchStep rel) acc = some b) :
    acc = some b ∨
      ∃ e ∈ m, matchesDir rel e = true ∧
        b = (normalizeDirPath e.1, e.2) := by
  induction m generalizing acc with
  | nil => exact Or.inl h
  | cons e m ih =>
      rw [List.foldl_cons] at h
      rcases ih (bestMatchStep rel acc e) h with hacc | ⟨e', he', hm', hb'⟩
      · cases acc with
        | none =>
            rw [bestMatchStep_none_eq] at hacc
            by_cases hm : jsStartsWith rel (normalizeDirPath e.1)
            · rw [if_pos hm] at hacc
              refine Or.inr ⟨e, List.mem_cons_self e m, ?_, ?_⟩
              · rw [matchesDir]; exact hm
              · exact (Option.some_injective _ hacc).symm
            · rw [if_neg hm] at hacc
              cases hacc
        | some b₀ =>
            rw [bestMatchStep_some_eq] at hacc
            by_cases hm : jsStartsWith rel (normalizeDirPath e.1)
            · rw [if_pos hm] at hacc
              by_cases hl : (normalizeDirPath e.1).length > b₀.1.length
              · rw [if_pos hl] at hacc
                refine Or.inr ⟨e, List.mem_cons_self e m, ?_, ?_⟩
                · rw [matchesDir]; exact hm
                · exact (Option.some_injective _ hacc).symm
              · rw [if_neg hl] at hacc
                exact Or.inl hacc
            · rw [if_neg hm] at hacc
              exact Or.inl hacc
      · exact Or.inr ⟨e', List.mem_cons_of_mem e he', hm', hb'⟩

/-- Maximality of the loop: the final best match has a normalized key at
least as long as that of every matching entry of the list. -/
theorem foldl_step_max (rel : String) (m : List (String × String))
    (acc : Option (String × String)) (b : String × String)
    (h : m.foldl (bestMatchStep rel) acc = some b) :
    ∀ e ∈ m, matchesDir rel e = true →
      (normalizeDirPath e.1).length ≤ b.1.length := by
  induction m generalizing acc with
  | nil => intro e he; cases he
  | cons x m ih =>
      rw [List.foldl_cons] at h
      intro e he hm
      rcases List.mem_cons.mp he with heq | hmem
      · subst heq
        have hx : jsStartsWith rel (normalizeDirPath e.1) = true := by
          rw [matchesDir] at hm; exact hm
        have hstep : ∃ b₁, bestMatchStep rel acc e = some b₁ ∧
            (normalizeDirPath e.1).length ≤ b₁.1.length := by
          cases acc with
          | none =>
              rw [bestMatchStep_none_eq, if_pos hx]
              exact ⟨(normalizeDirPath e.1, e.2), rfl, le_refl _⟩
          | some b₀ =>
              rw [bestMatchStep_some_eq, if_pos hx]
              by_cases hl : (normalizeDirPath e.1).length > b₀.1.length
              · rw [if_pos hl]
                exact ⟨(normalizeDirPath e.1, e.2), rfl, le_refl _⟩
              · rw [if_neg hl]
                exact ⟨b₀, rfl, Nat.le_of_not_lt hl⟩
        obtain ⟨b₁, hb₁, hlen⟩ := hstep
        rw [hb₁] at h
        obtain ⟨b', hb', hmono⟩ := foldl_step_some rel m b₁
        rw [h] at hb'
        have hbb : b = b' := Option.some_injective _ hb'
        rw [hbb]
        exact le_trans hlen hmono
      · exact ih (bestMatchStep rel acc x) h e hmem hm

/-- Characterization of `resolveStartup` without a workspace profile:
it yields `NoMatch` exactly when the best-match loop finds nothing. -/
theorem resolveStartup_noMatch_iff (m : List (String × String))
    (r : String) :
    resolveStartup none m r = ResolutionResult.NoMatch ↔
      findBestMatch (normalizeRelativePath r) m = none := by
  rw [resolveStartup]
  have : wsTruthy none = false := rfl
  rw [this]
  simp only [Bool.false_eq_true, if_false]
  cases h : findBestMatch (normalizeRelativePath r) m with
  | none => simp
  | some b => simp

/-- Bridge between the boolean `jsStartsWith` and the list-prefix order. -/
theorem jsStartsWith_iff (s pre : String) :
    jsStartsWith s pre = true ↔ pre.data <+: s.data := by
  rw [jsStartsWith]
  exact List.isPrefixOf_iff_prefix

/-- Appending strings concatenates their character lists. -/
theorem string_data_append (s t : String) :
    (s ++ t).data = s.data ++ t.data := rfl

/-- Every normalized directory key ends in a forward slash. -/
theorem normalizeDirPath_ends_slash (d : String) :
    ∃ l, (normalizeDirPath d).data = l ++ ['/'] := by
  rw [normalizeDirPath]
  by_cases h : jsEndsWith d "/"
  · rw [if_pos h]
    rw [jsEndsWith] at h
    have hs : ("/" : String).data <:+ d.data :=
      List.isSuffixOf_iff_suffix.mp h
    obtain ⟨l, hl⟩ := hs
    exact ⟨l, hl.symm⟩
  · rw [if_neg h]
    exact ⟨d.data, string_data_append d "/"⟩

/-- A character list that ends in a slash and does not itself begin with
the segment `../` is never a prefix of a list beginning with `../`. -/
theorem no_match_of_dotdot (K R : List Char)
    (hR : ['.', '.', '/'] <+: R) (l : List Char) (hK : K = l ++ ['/'])
    (hnot : ¬(['.', '.', '/'] <+: K)) : ¬(K <+: R) := by
  intro hKR
  rcases List.prefix_or_prefix_of_prefix hKR hR with h | h
  · obtain ⟨t, ht⟩ := h
    subst hK
    rcases l with _ | ⟨a, l⟩
    · simp at ht
    · rcases l with _ | ⟨b, l⟩
      · simp at ht
      · rcases l with _ | ⟨c, l⟩
        · simp at ht
          obtain ⟨ha, hb, htn⟩ := ht
          subst ha; subst hb
          exact hnot List.prefix_rfl
        · have hlen := congrArg List.length ht
          simp at hlen
  · exact hnot h

/-- A normalized relative path that begins with `../` (a file outside the
workspace root) is not matched by any key that, once normalized, does not
itself begin with `../`. -/
theorem jsStartsWith_false_of_dotdot (rel nk : String)
    (hrel : jsStartsWith rel "../" = true)
    (hend : ∃ l, nk.data = l ++ ['/'])
    (hnk : jsStartsWith nk "../" = false) :
    jsStartsWith rel nk = false := by
  obtain ⟨l, hl⟩ := hend
  rw [Bool.eq_false_iff]
  intro hc
  have hR : ("../" : String).data <+: rel.data := (jsStartsWith_iff _ _).mp hrel
  have hK : ¬(("../" : String).data <+: nk.data) := by
    intro hcon
    rw [← jsStartsWith_iff] at hcon
    rw [hnk] at hcon
    cases hcon
  exact no_match_of_dotdot nk.data rel.data hR l hl hK
    ((jsStartsWith_iff _ _).mp hc)

/-- C1: the spec requires workspace-level precedence and claims that
`getProfileForPath` with a workspace profile set returns that workspace
profile rather than any directory-mapping match.  In the source the
workspace profile is read into a conditional whose body is empty
(`settingsManager.ts` lines 129-133), so `getProfileForPath` ignores it
entirely: the result is the directory-mapping match (here `"P"`, not the
configured `"W"`), and `undefined` when no mapping matches.  The first
conjunct shows the workspace profile has no effect on the result at all. -/
theorem claim1_getProfileForPath_ignores_workspace_profile :
    (∀ (ws ws' : Option String)
        (dirs : Option (List (String × String))) (rel : String),
        getProfileForPath (SettingsSource.parsed ws dirs) rel =
          getProfileForPath (SettingsSource.parsed ws' dirs) rel)
    ∧ getProfileForPath
        (SettingsSource.parsed (some "W") (some [("a/", "P")])) "a/x.ts" =
        some "P"
    ∧ getProfileForPath
        (SettingsSource.parsed (some "W") (some [])) "a/x.ts" = none := by
  refine ⟨fun ws ws' dirs rel => rfl, by decide, by decide⟩

/-- C2: among all matching directory mappings the resolver returns a best
match that is itself a matching entry (recorded with its normalized key)
whose normalized key is at least as long as that of every matching entry;
concretely, mappings `a/ → P1`, `a/b/ → P2` on file `a/b/c.txt` with no
workspace profile resolve to `P2` with matched path `a/b/`. -/
theorem claim2_longest_prefix_match :
    (∀ (m : List (String × String)) (r : String) (e : String × String),
        e ∈ m → matchesDir (normalizeRelativePath r) e = true →
        ∃ b, findBestMatch (normalizeRelativePath r) m = some b ∧
          (∃ e' ∈ m, matchesDir (normalizeRelativePath r) e' = true ∧
            b = (normalizeDirPath e'.1, e'.2)) ∧
          ∀ e' ∈ m, matchesDir (normalizeRelativePath r) e' = true →
            (normalizeDirPath e'.1).length ≤ b.1.length)
    ∧ resolveStartup none [("a/", "P1"), ("a/b/", "P2")] "a/b/c.txt" =
        ResolutionResult.DirectoryLevel "P2" "a/b/" := by
  constructor
  · intro m r e he hm
    cases hb : findBestMatch (normalizeRelativePath r) m with
    | none =>
        have hf := (findBestMatch_eq_none_iff _ m).mp hb e he
        rw [hm] at hf
        cases hf
    | some b =>
        refine ⟨b, rfl, ?_, ?_⟩
        · rcases foldl_step_mem _ m none b hb with h | h
          · cases h
          · exact h
        · exact foldl_step_max _ m none b hb
  · decide

/-- Witness for C2 at the spec's concrete example. -/
theorem claim2_witness :
    ∃ b, findBestMatch (normalizeRelativePath "a/b/c.txt")
        [("a/", "P1"), ("a/b/", "P2")] = some b ∧
      (∃ e' ∈ [("a/", "P1"), ("a/b/", "P2")],
        matchesDir (normalizeRelativePath "a/b/c.txt") e' = true ∧
          b = (normalizeDirPath e'.1, e'.2)) ∧
      ∀ e' ∈ [("a/", "P1"), ("a/b/", "P2")],
        matchesDir (normalizeRelativePath "a/b/c.txt") e' = true →
          (normalizeDirPath e'.1).length ≤ b.1.length :=
  claim2_longest_prefix_match.1 [("a/", "P1"), ("a/b/", "P2")] "a/b/c.txt"
    ("a/", "P1") (by simp) (by decide)

/-- C3: matching is decided on normalized strings (trailing slash appended
to the key when absent, backslashes turned into forward slashes and a
trailing slash appended to the relative path), and an entry applies exactly
when the normalized relative path literally starts with the normalized key;
the key `src/components` (no trailing slash) matches
`src/components/widget.ts` whether the host separator is `/` or `\`. -/
theorem claim3_separator_normalization :
    (∀ (m : List (String × String)) (r : String),
        ¬resolveStartup none m r = ResolutionResult.NoMatch ↔
          ∃ e ∈ m, jsStartsWith (normalizeRelativePath r)
            (normalizeDirPath e.1) = true)
    ∧ normalizeDirPath "src/components" = "src/components/"
    ∧ normalizeRelativePath "src\\components\\widget.ts" =
        normalizeRelativePath "src/components/widget.ts"
    ∧ resolveStartup none [("src/components", "X")]
        "src/components/widget.ts" =
        ResolutionResult.DirectoryLevel "X" "src/components/"
    ∧ resolveStartup none [("src/components", "X")]
        "src\\components\\widget.ts" =
        ResolutionResult.DirectoryLevel "X" "src/components/" := by
  refine ⟨?_, by decide, by decide, by decide, by decide⟩
  intro m r
  rw [not_iff_comm, resolveStartup_noMatch_iff, findBestMatch_eq_none_iff]
  constructor
  · intro h e he
    rw [matchesDir]
    rcases hx : jsStartsWith (normalizeRelativePath r) (normalizeDirPath e.1)
      with _ | _
    · rfl
    · exact absurd ⟨e, he, hx⟩ h
  · intro h hex
    obtain ⟨e, he, hx⟩ := hex
    have := h e he
    rw [matchesDir, hx] at this
    cases this

/-- C4 counterexample: the claim states that a directory mapping whose key
is the empty string acts as a catch-all, so resolution never yields
`NoMatch` for an in-workspace file.  On the code this is false: for the
in-workspace file with relative path `a.txt`, the only mapping being the
empty-string key, resolution yields `NoMatch` and `getProfileForPath`
returns `undefined`, because the normalized relative path `a.txt/` does not
start with the normalized key `/`. -/
theorem claim4_counterexample :
    resolveStartup none [("", "P")] "a.txt" = ResolutionResult.NoMatch ∧
    getProfileForPath (SettingsSource.parsed none (some [("", "P")]))
      "a.txt" = none := by
  decide

/-- C4 amended: the empty-string key normalizes to `/`, and with that sole
mapping resolution yields the directory-level result exactly when the
normalized relative path starts with `/` — which holds for the empty
relative path (the workspace root itself) but not for ordinary in-workspace
files, so the empty-string key is not a catch-all. -/
theorem claim4_empty_key_matches_only_slash :
    normalizeDirPath "" = "/"
    ∧ (∀ (p r : String), resolveStartup none [("", p)] r =
        if jsStartsWith (normalizeRelativePath r) "/" then
          ResolutionResult.DirectoryLevel p "/"
        else ResolutionResult.NoMatch)
    ∧ resolveStartup none [("", "P")] "" =
        ResolutionResult.DirectoryLevel "P" "/" := by
  refine ⟨by decide, ?_, by decide⟩
  intro p r
  have h0 : normalizeDirPath "" = "/" := by decide
  have h1 : findBestMatch (normalizeRelativePath r) [("", p)] =
      if jsStartsWith (normalizeRelativePath r) "/" then some ("/", p)
      else none := by
    rw [findBestMatch, List.foldl_cons, List.foldl_nil, bestMatchStep_none_eq]
    dsimp only
    rw [h0]
  have hws : wsTruthy (none : Option String) = false := rfl
  rw [resolveStartup, hws]
  simp only [Bool.false_eq_true, if_false, h1]
  by_cases h : jsStartsWith (normalizeRelativePath r) "/"
  · rw [if_pos h, if_pos h]
  · rw [if_neg h, if_neg h]

/-- C9: resolution is total and, for a file outside the workspace root —
one whose computed relative path normalizes to a string beginning with
`../` — no directory mapping whose keys are in-workspace relative paths
(normalized keys not beginning with `../`) can match, so resolution yields
`NoMatch` and `getProfileForPath` returns `undefined`. -/
theorem claim9_outside_root_no_match :
    ∀ (dirs : List (String × String)) (ws : Option String) (rel : String),
      jsStartsWith (normalizeRelativePath rel) "../" = true →
      (∀ e ∈ dirs, jsStartsWith (normalizeDirPath e.1) "../" = false) →
      resolveStartup none dirs rel = ResolutionResult.NoMatch ∧
      getProfileForPath (SettingsSource.parsed ws (some dirs)) rel = none := by
  intro dirs ws rel hrel hkeys
  have hnone : findBestMatch (normalizeRelativePath rel) dirs = none := by
    rw [findBestMatch_eq_none_iff]
    intro e he
    rw [matchesDir]
    exact jsStartsWith_false_of_dotdot _ _ hrel
      (normalizeDirPath_ends_slash e.1) (hkeys e he)
  constructor
  · rw [resolveStartup_noMatch_iff]
    exact hnone
  · show (findBestMatch (normalizeRelativePath rel) dirs).map Prod.snd = none
    rw [hnone]
    rfl

/-- Witness for C9 at the concrete outside-root path `../x.ts` against the
in-workspace mapping `a/ → P`. -/
theorem claim9_witness :
    resolveStartup none [("a/", "P")] "../x.ts" = ResolutionResult.NoMatch ∧
    getProfileForPath (SettingsSource.parsed none (some [("a/", "P")]))
      "../x.ts" = none :=
  claim9_outside_root_no_match [("a/", "P")] none "../x.ts" (by decide)
    (by decide)

/-- C10: the best-match comparison uses strictly-greater length, so a later
entry whose normalized key matches with the same length as the current best
never replaces it; concretely the raw keys `a/b` and `a/b/` both normalize
to `a/b/`, and on file `a/b/c.txt` the first entry (`P1`) wins. -/
theorem claim10_first_equal_length_match_kept :
    (∀ (rel : String) (m : List (String × String)) (b e : String × String),
        findBestMatch rel m = some b →
        jsStartsWith rel (normalizeDirPath e.1) = true →
        (normalizeDirPath e.1).length = b.1.length →
        findBestMatch rel (m ++ [e]) = some b)
    ∧ resolveStartup none [("a/b", "P1"), ("a/b/", "P2")] "a/b/c.txt" =
        ResolutionResult.DirectoryLevel "P1" "a/b/"
    ∧ normalizeDirPath "a/b" = normalizeDirPath "a/b/" := by
  refine ⟨?_, by decide, by decide⟩
  intro rel m b e hb hm hlen
  rw [findBestMatch] at hb ⊢
  rw [List.foldl_append, List.foldl_cons, List.foldl_nil, hb,
    bestMatchStep_some_eq, if_pos hm, if_neg (by omega)]

/-- Witness for C10: with the single mapping `a/b → P1` already matched at
normalized length 4, appending the equal-length mapping `a/b/ → P2` leaves
the first best match in place. -/
theorem claim10_witness :
    findBestMatch (normalizeRelativePath "a/b/c.txt")
      ([("a/b", "P1")] ++ [("a/b/", "P2")]) = some ("a/b/", "P1") :=
  claim10_first_equal_length_match_kept.1
    (normalizeRelativePath "a/b/c.txt") [("a/b", "P1")] ("a/b/", "P1")
    ("a/b/", "P2") (by decide) (by decide) (by decide)

/-- C5: if every candidate strategy raises, `switchToProfile` returns
`false` (the `Failed` outcome) without propagating any exception — in the
embedding every host-API error is consumed by the loop and the function
totalizes to a `Bool`; and if the first strategy completes without error,
the loop short-circuits: the result is `true` and no later strategy is ever
invoked. -/
theorem claim5_applier_fallback_exhaustion :
    ∀ (idToName : List (String × String))
      (profileDirExists : String → Bool)
      (exec : String → Except String Unit) (profileName : String),
      ((∀ a, ∃ msg, exec a = Except.error msg) →
        switchToProfile idToName profileDirExists exec profileName = false)
      ∧ (∀ a rest,
          buildApproaches profileName
            (getProfileIdFromName idToName profileDirExists profileName) =
            a :: rest →
          exec a = Except.ok () →
          switchToProfile idToName profileDirExists exec profileName = true ∧
          invokedApproaches exec
            (buildApproaches profileName
              (getProfileIdFromName idToName profileDirExists profileName)) =
            [a]) := by
  intro idToName pde exec name
  constructor
  · intro hfail
    rw [switchToProfile]
    generalize buildApproaches name (getProfileIdFromName idToName pde name)
      = l
    induction l with
    | nil => rfl
    | cons a rest ih =>
        rw [runApproaches]
        obtain ⟨msg, hmsg⟩ := hfail a
        rw [hmsg]
        exact ih
  · intro a rest hbuild hok
    rw [switchToProfile, hbuild]
    constructor
    · rw [runApproaches, hok]
    · rw [invokedApproaches, hok]

/-- Witness for C5: for profile `Work` with an empty registry, all-failing
strategies yield `false`, and an immediately succeeding first strategy
yields `true` with exactly one invocation (of the raw name `Work`). -/
theorem claim5_witness :
    switchToProfile [] (fun _ => false) (fun _ => Except.error "boom")
      "Work" = false ∧
    (switchToProfile [] (fun _ => false) (fun _ => Except.ok ()) "Work" =
      true ∧
      invokedApproaches (fun _ => Except.ok ())
        (buildApproaches "Work"
          (getProfileIdFromName [] (fun _ => false) "Work")) = ["Work"]) :=
  ⟨(claim5_applier_fallback_exhaustion [] (fun _ => false)
      (fun _ => Except.error "boom") "Work").1 (fun a => ⟨"boom", rfl⟩),
    (claim5_applier_fallback_exhaustion [] (fun _ => false)
      (fun _ => Except.ok ()) "Work").2 "Work" [] (by decide) rfl⟩

/-- C6: for the sentinel name `Default` the ordered candidate list is
exactly the empty-string identifier followed by the literal name `Default`;
for any other name it is the resolved identifier (when the lookup yields a
non-null identifier) followed by the raw name, the raw name always being
present as the last candidate. -/
theorem claim6_candidate_strategy_order :
    ∀ (idToName : List (String × String))
      (profileDirExists : String → Bool) (pid : Option String)
      (name : String),
      buildApproaches "Default" pid = ["", "Default"]
      ∧ (name ≠ "Default" →
          (∀ id, getProfileIdFromName idToName profileDirExists name =
              some id →
            buildApproaches name
              (getProfileIdFromName idToName profileDirExists name) =
              [id, name])
          ∧ (getProfileIdFromName idToName profileDirExists name = none →
              buildApproaches name
                (getProfileIdFromName idToName profileDirExists name) =
                [name])) := by
  intro idToName pde pid name
  refine ⟨rfl, fun hname => ⟨?_, ?_⟩⟩
  · intro id hid
    unfold buildApproaches
    rw [if_neg hname, hid]
    rfl
  · intro hid
    unfold buildApproaches
    rw [if_neg hname, hid]
    rfl

/-- Witness for C6: the name `Work` with registry entry `id1 → Work`
resolves to identifier `id1` and yields the candidate list
`[id1, Work]`; the name `Default` yields `["", "Default"]`. -/
theorem claim6_witness :
    buildApproaches "Default" (some "zzz") = ["", "Default"] ∧
    buildApproaches "Work"
      (getProfileIdFromName [("id1", "Work")] (fun _ => false) "Work") =
      ["id1", "Work"] :=
  ⟨(claim6_candidate_strategy_order [("id1", "Work")] (fun _ => false)
      (some "zzz") "Work").1,
    ((claim6_candidate_strategy_order [("id1", "Work")] (fun _ => false)
      (some "zzz") "Work").2 (by decide)).1 "id1" (by decide)⟩

/-- Sorting preserves membership. -/
theorem mem_sortStrings (a : String) (l : List String) :
    a ∈ sortStrings l ↔ a ∈ l :=
  (List.perm_insertionSort _ l).mem_iff

/-- The JavaScript string sort produces a list sorted by the lexicographic
order on strings. -/
theorem sortStrings_sorted (l : List String) :
    List.Sorted (fun a b : String => a ≤ b) (sortStrings l) :=
  List.sorted_insertionSort _ l

/-- The sentinel is always present after the injection step. -/
theorem mem_injectDefault (l : List String) : "Default" ∈ injectDefault l := by
  rw [injectDefault]
  by_cases h : l.contains "Default"
  · rw [if_pos h]
    exact List.elem_iff.mp h
  · rw [if_neg h]
    exact List.mem_cons_self _ _

/-- When the file-system enumeration is non-empty, `getAvailableProfiles`
returns it unchanged. -/
theorem getAvailableProfiles_eq_fs (fsr : FSReadResult)
    (idToName : List (String × String))
    (h : getAvailableProfilesFromFileSystem fsr idToName ≠ []) :
    getAvailableProfiles fsr idToName =
      getAvailableProfilesFromFileSystem fsr idToName := by
  show (if (getAvailableProfilesFromFileSystem fsr idToName).length > 0 then
      getAvailableProfilesFromFileSystem fsr idToName
    else sortStrings (ensureNonEmpty (injectDefault []))) =
    getAvailableProfilesFromFileSystem fsr idToName
  rw [if_pos (List.length_pos.mpr h)]

/-- C7: whatever the state of the profile-storage directory — user data
path missing, profiles directory missing, a read error, or any list of
entries under any registry — `getAvailableProfiles` returns a non-empty
list that contains `Default` and is sorted in lexicographic string order. -/
theorem claim7_default_sentinel_and_sorted :
    ∀ (fsr : FSReadResult) (idToName : List (String × String)),
      "Default" ∈ getAvailableProfiles fsr idToName ∧
      getAvailableProfiles fsr idToName ≠ [] ∧
      List.Sorted (fun a b : String => a ≤ b)
        (getAvailableProfiles fsr idToName) := by
  intro fsr idToName
  have key : ∀ l : List String, "Default" ∈ l →
      "Default" ∈ sortStrings (ensureNonEmpty l) ∧
      sortStrings (ensureNonEmpty l) ≠ [] ∧
      List.Sorted (fun a b : String => a ≤ b)
        (sortStrings (ensureNonEmpty l)) := by
    intro l hl
    have hne : ensureNonEmpty l = l := by
      rw [ensureNonEmpty, if_neg]
      rw [List.isEmpty_iff]
      exact List.ne_nil_of_mem hl
    have hmem : "Default" ∈ sortStrings (ensureNonEmpty l) := by
      rw [hne, mem_sortStrings]
      exact hl
    exact ⟨hmem, List.ne_nil_of_mem hmem, sortStrings_sorted _⟩
  cases fsr with
  | noUserDataPath =>
      have heq : getAvailableProfiles FSReadResult.noUserDataPath idToName =
          ["Default"] :=
        getAvailableProfiles_eq_fs _ _ (by simp
          [getAvailableProfilesFromFileSystem])
      rw [heq]
      exact ⟨List.mem_singleton.mpr rfl, by simp,
        List.sorted_singleton "Default"⟩
  | profilesDirMissing =>
      obtain ⟨h1, h2, h3⟩ := key (injectDefault []) (mem_injectDefault [])
      have heq : getAvailableProfiles FSReadResult.profilesDirMissing
          idToName = sortStrings (ensureNonEmpty (injectDefault [])) :=
        getAvailableProfiles_eq_fs _ _ h2
      rw [heq]
      exact ⟨h1, h2, h3⟩
  | readError =>
      obtain ⟨h1, h2, h3⟩ := key ([] ++ ["Default"]) (by simp)
      have heq : getAvailableProfiles FSReadResult.readError idToName =
          sortStrings (ensureNonEmpty ([] ++ ["Default"])) :=
        getAvailableProfiles_eq_fs _ _ h2
      rw [heq]
      exact ⟨h1, h2, h3⟩
  | entries es =>
      obtain ⟨h1, h2, h3⟩ := key
        (injectDefault ((es.filter keepEntry).map fun e =>
          lookupNameOrId idToName e.name))
        (mem_injectDefault _)
      have heq : getAvailableProfiles (FSReadResult.entries es) idToName =
          sortStrings (ensureNonEmpty
            (injectDefault ((es.filter keepEntry).map fun e =>
              lookupNameOrId idToName e.name))) :=
        getAvailableProfiles_eq_fs _ _ h2
      rw [heq]
      exact ⟨h1, h2, h3⟩

/-- C8: when the settings source is missing or fails to parse, both
configuration reads recover locally and behave as if no mapping were
present: `getWorkspaceProfile` returns `undefined` and
`getDirectoryProfiles` returns the empty mapping, with no exception
reaching the caller (both embeddings are total functions). -/
theorem claim8_settings_read_recovery :
    ∀ s : SettingsSource,
      (s = SettingsSource.missing ∨ s = SettingsSource.unparseable) →
      getWorkspaceProfile s = none ∧ getDirectoryProfiles s = [] := by
  intro s h
  rcases h with h | h <;> subst h <;> exact ⟨rfl, rfl⟩

/-- Witness for C8 at the missing-settings source. -/
theorem claim8_witness :
    getWorkspaceProfile SettingsSource.missing = none ∧
    getDirectoryProfiles SettingsSource.missing = [] :=
  claim8_settings_read_recovery SettingsSource.missing (Or.inl rfl)

end ProfileSwitcher
